import Mathlib

/-!
Shallow embedding of `src/classes/state/state-cache-storage.ts`.

The TypeScript component persists a state string across runs via a remote
cache backend, staging the payload in a local scratch file.  We model the
observable world as an association list of disk files, an association list
of remote cache entries (key, stored content), and a log trace.  Every
fallible external operation (backend listing, delete, upload, download,
and the filesystem calls made outside try/catch) is driven by an explicit
fault environment `Env`, so that each execution of `save`/`restore` is a
pure function of the environment and the starting world.  A call that
throws to its caller is modelled with `Except.error`.
-/

/-- A JavaScript error value as inspected by the source: an optional
HTTP-like status field and a message.  `error.status` is truthy exactly
when it is present and non-zero. -/
structure JsErr where
  status : Option Nat
  message : String
deriving DecidableEq, Repr

/-- JS truthiness of `error.status` as tested by `resetCacheWithOctokit`. -/
def JsErr.statusTruthy (e : JsErr) : Bool :=
  match e.status with
  | some n => n != 0
  | none => false

/-- A log line emitted through the logging sink (`core.info`,
`core.warning`, `core.debug`). -/
inductive LogMsg where
  | info (msg : String)
  | warning (msg : String)
  | debug (msg : String)
deriving DecidableEq, Repr

/-- Fault environment: which external operations fail during this call.
`downloadMaterializes` says whether a successful `cache.restoreCache`
actually writes the scratch file (false models the corrupt-download case
the source guards against with `fs.existsSync`). -/
structure Env where
  listFails : Bool
  deleteErr : Option JsErr
  uploadFails : Bool
  downloadFails : Bool
  downloadMaterializes : Bool
  mkdirFails : Bool
  writeFails : Bool
  readFails : Bool
deriving DecidableEq, Repr

/-- All external operations behave: the "successful backend" hypothesis. -/
def Env.allOk (env : Env) : Bool :=
  !env.listFails && env.deleteErr.isNone && !env.uploadFails &&
  !env.downloadFails && env.downloadMaterializes && !env.mkdirFails &&
  !env.writeFails && !env.readFails

/-- Observable world: local disk files (path, content), remote cache
entries (key, uploaded scratch-file content), and the log trace. -/
structure World where
  disk : List (String × String)
  cache : List (String × String)
  logs : List LogMsg
deriving DecidableEq, Repr

/- Constants from the source file. -/

def CACHE_KEY : String := "_state"
def STATE_FILE : String := "state.txt"
def STALE_DIR : String := "56acbeaa-1fef-4c79-8f84-7565e560fb03"

/-- `os.tmpdir()` modelled as a fixed root. -/
def TMP_ROOT : String := "/tmp"

/-- `path.join(os.tmpdir(), STALE_DIR)` from `mkTempDir`. -/
def tmpDirPath : String := TMP_ROOT ++ "/" ++ STALE_DIR

/-- The scratch file basename: the source computes
`${this.statePrefix}_${STATE_FILE}`. -/
def stateFileName (pfx : String) : String := pfx ++ "_" ++ STATE_FILE

/-- Full path of the scratch file for a configured prefix. -/
def scratchFilePath (pfx : String) : String := tmpDirPath ++ "/" ++ stateFileName pfx

/-- The cache key: the source computes `${this.statePrefix}${CACHE_KEY}`. -/
def cacheKeyOf (pfx : String) : String := pfx ++ CACHE_KEY

/- Filesystem primitives over the disk association list. -/

/-- `fs.writeFileSync`: (re)place the file at `p` with content `c`. -/
def diskWrite (d : List (String × String)) (p c : String) : List (String × String) :=
  (p, c) :: d.filter (fun e => !(e.1 == p))

/-- `fs.unlinkSync` wrapped in `unlinkSafely`: remove the file, never fails. -/
def diskUnlink (d : List (String × String)) (p : String) : List (String × String) :=
  d.filter (fun e => !(e.1 == p))

/-- `fs.readFileSync`: content of the file at `p`, if present. -/
def diskRead (d : List (String × String)) (p : String) : Option String :=
  (d.find? (fun e => e.1 == p)).map (fun e => e.2)

/-- `fs.existsSync`. -/
def diskExists (d : List (String × String)) (p : String) : Bool :=
  d.any (fun e => e.1 == p)

/- Remote cache backend primitives. -/

/-- Backend prefix matching on keys: `s` starts with `q`. -/
def keyStartsWith (s q : String) : Bool :=
  s.data.take q.data.length == q.data

/-- `getActionsCacheList` with `key: cacheKey`: the backend returns the
keys of all entries whose key starts with the query (prefix matching). -/
def cacheListKeys (c : List (String × String)) (q : String) : List String :=
  (c.filter (fun e => keyStartsWith e.1 q)).map (fun e => e.1)

/-- Whether an entry with exactly key `k` is stored. -/
def cacheHasKey (c : List (String × String)) (k : String) : Bool :=
  c.any (fun e => e.1 == k)

/-- `deleteActionsCacheByKey`: remove the entries stored under exactly `k`. -/
def cacheDeleteKey (c : List (String × String)) (k : String) : List (String × String) :=
  c.filter (fun e => !(e.1 == k))

/-- Stored content under exactly key `k`, if any. -/
def cacheLookup (c : List (String × String)) (k : String) : Option String :=
  (c.find? (fun e => e.1 == k)).map (fun e => e.2)

/-- Number of stored entries whose key is exactly `k`. -/
def countKey (c : List (String × String)) (k : String) : Nat :=
  (c.filter (fun e => e.1 == k)).length

/- Errors thrown by the modelled external operations. -/

def uploadErr : JsErr := ⟨none, "upload failed"⟩
def downloadErr : JsErr := ⟨none, "download failed"⟩
def readErr : JsErr := ⟨none, "read failed"⟩
def mkdirErr : JsErr := ⟨none, "mkdir failed"⟩
def writeErr : JsErr := ⟨none, "write failed"⟩

/-- `error.message || 'unknown reason'` (empty string is falsy in JS). -/
def orUnknown (m : String) : String := if m == "" then "unknown reason" else m

/-- The warning logged by `save`'s catch block. -/
def saveFailWarning (e : JsErr) : LogMsg :=
  LogMsg.warning ("Saving the state was not successful due to \"" ++ orUnknown e.message ++ "\"")

/-- The warning logged by `restore`'s catch block. -/
def restoreFailWarning (e : JsErr) : LogMsg :=
  LogMsg.warning ("Restoring the state was not successful due to \"" ++ orUnknown e.message ++ "\"")

/-- Rendering of `error.status` inside the delete warning. -/
def statusText : Option Nat → String
  | some n => Nat.repr n
  | none => ""

/-- The warning logged when `deleteActionsCacheByKey` fails with a truthy
status: `Error delete ...: [status] message`. -/
def deleteWarning (cacheKey : String) (e : JsErr) : LogMsg :=
  LogMsg.warning ("Error delete " ++ cacheKey ++ ": [" ++ statusText e.status ++ "] " ++
    (if e.message == "" then "Unknown reason" else e.message))

/-- The warning logged when the downloaded cache entry left no scratch file. -/
def unpackWarning : LogMsg :=
  LogMsg.warning "Unknown error when unpacking the cache, the process starts from the first issue."

/-- The info line logged when no saved state is found on restore. -/
def notFoundInfo : LogMsg :=
  LogMsg.info "The saved state was not found, the process starts from the first issue."

/-- `checkIfCacheExists` from the source: list entries with prefix-matching
semantics, then report existence exactly when some listed key equals the
cache key character for character.  A listing failure is logged at debug
level and reported as absence (`return false`). -/
def checkIfCacheExists (env : Env) (c : List (String × String)) (cacheKey : String) :
    Bool × List LogMsg :=
  if env.listFails then
    (false, [LogMsg.debug "Error checking if cache exist"])
  else
    ((cacheListKeys c cacheKey).any (fun k => k == cacheKey), [])

/-- `resetCacheWithOctokit` from the source: attempt the delete; on an
error whose `status` is truthy log a warning and swallow it, otherwise
rethrow.  Returns the new cache contents, the logs emitted, and the error
that escapes the function, if any. -/
def resetCacheWithOctokit (env : Env) (c : List (String × String)) (cacheKey : String) :
    List (String × String) × List LogMsg × Option JsErr :=
  let dbg := LogMsg.debug ("remove cache \"" ++ cacheKey ++ "\"")
  match env.deleteErr with
  | none => (cacheDeleteKey c cacheKey, [dbg], none)
  | some e =>
    if e.statusTruthy then
      (c, [dbg, deleteWarning cacheKey e], none)
    else
      (c, [dbg], some e)

/-- Body of `StateCacheStorage.save` once `mkTempDir` and `writeFileSync`
have succeeded: the try/catch/finally.  Never throws: the catch block
absorbs every error raised inside the try (including the one rethrown by
`resetCacheWithOctokit`), and the finally unlinks the scratch file. -/
def saveBody (env : Env) (pfx st : String) (w : World) : World :=
  let filePath := scratchFilePath pfx
  let cacheKey := cacheKeyOf pfx
  let wA : World := { w with disk := diskWrite w.disk filePath st }
  let chk := checkIfCacheExists env wA.cache cacheKey
  let wB : World := { wA with logs := wA.logs ++ chk.2 }
  let afterDelete : World × Option JsErr :=
    if chk.1 then
      let r := resetCacheWithOctokit env wB.cache cacheKey
      ({ wB with cache := r.1, logs := wB.logs ++ r.2.1 }, r.2.2)
    else (wB, none)
  let wC := afterDelete.1
  let wD : World :=
    match afterDelete.2 with
    | some e => { wC with logs := wC.logs ++ [saveFailWarning e] }
    | none =>
      let content := (diskRead wC.disk filePath).getD ""
      if content.length == 0 then
        { wC with logs := wC.logs ++ [LogMsg.info "the state will be removed"] }
      else if env.uploadFails then
        { wC with logs := wC.logs ++ [saveFailWarning uploadErr] }
      else
        { wC with cache := (cacheKey, content) :: wC.cache }
  { wD with disk := diskUnlink wD.disk filePath }

/-- `StateCacheStorage.save`.  `mkTempDir` and `fs.writeFileSync` run
before the try block, so their failures throw to the caller; everything
afterwards is `saveBody`. -/
def save (env : Env) (pfx st : String) (w : World) : Except JsErr World :=
  if env.mkdirFails then Except.error mkdirErr
  else if env.writeFails then Except.error writeErr
  else Except.ok (saveBody env pfx st w)

/-- Body of `StateCacheStorage.restore` once `mkTempDir` has succeeded:
unlink any stale scratch file, then the try/catch.  Never throws; returns
the restored text (or "" on any absorbed failure) and the final world. -/
def restoreBody (env : Env) (pfx : String) (w : World) : String × World :=
  let filePath := scratchFilePath pfx
  let cacheKey := cacheKeyOf pfx
  let w0 : World := { w with disk := diskUnlink w.disk filePath }
  let chk := checkIfCacheExists env w0.cache cacheKey
  let w1 : World := { w0 with logs := w0.logs ++ chk.2 }
  if !chk.1 then
    ("", { w1 with logs := w1.logs ++ [notFoundInfo] })
  else if env.downloadFails then
    ("", { w1 with logs := w1.logs ++ [restoreFailWarning downloadErr] })
  else
    let w2 : World :=
      if env.downloadMaterializes then
        match cacheLookup w1.cache cacheKey with
        | some content => { w1 with disk := diskWrite w1.disk filePath content }
        | none => w1
      else w1
    if !(diskExists w2.disk filePath) then
      ("", { w2 with logs := w2.logs ++ [unpackWarning] })
    else if env.readFails then
      ("", { w2 with logs := w2.logs ++ [restoreFailWarning readErr] })
    else
      ((diskRead w2.disk filePath).getD "", w2)

/-- `StateCacheStorage.restore`.  `mkTempDir` runs before the try block,
so its failure throws to the caller; everything afterwards is
`restoreBody`. -/
def restore (env : Env) (pfx : String) (w : World) : Except JsErr (String × World) :=
  if env.mkdirFails then Except.error mkdirErr
  else Except.ok (restoreBody env pfx w)

/- Harness definitions used by the statements below. -/

/-- Run `save` then `restore` on the resulting world; `none` when either
call throws. -/
def saveThenRestore (env : Env) (pfx st : String) (w : World) : Option String :=
  match save env pfx st w with
  | Except.error _ => none
  | Except.ok w1 =>
    match restore env pfx w1 with
    | Except.error _ => none
    | Except.ok p => some p.1

/-- Whether the scratch file for `pfx` is present on disk after a
`restore` call that returns normally. -/
def scratchLeftAfterRestore (env : Env) (pfx : String) (w : World) : Bool :=
  match restore env pfx w with
  | Except.ok p => diskExists p.2.disk (scratchFilePath pfx)
  | Except.error _ => false

/-- A fully successful environment. -/
def goodEnv : Env := ⟨false, none, false, false, true, false, false, false⟩

/-- The empty starting world. -/
def w0 : World := ⟨[], [], []⟩

/- Concrete environments and worlds used in the claim statements. -/

/-- World exhibiting the C1 counterexample: one stored entry for prefix
`foo`, clean disk. -/
def c1World : World := ⟨[], [("foo_state", "42")], []⟩

/-- Environment whose delete step fails with an error carrying no status. -/
def statuslessDeleteEnv : Env := ⟨false, some ⟨none, "boom"⟩, false, false, true, false, false, false⟩

/-- World with an existing entry under `foo_state`, so save's delete step runs. -/
def c3World : World := ⟨[], [("foo_state", "old")], []⟩

/-- Environment in which `fs.mkdirSync` fails while everything else is fine. -/
def mkdirFailEnv : Env := ⟨false, none, false, false, true, true, false, false⟩

/-- Environment whose listing call fails while everything else is fine. -/
def listFailEnv : Env := ⟨true, none, false, false, true, false, false, false⟩

/-- Run `save` twice with the same payload, then count the entries stored
under the cache key; `none` when either call throws. -/
def saveTwiceCache (env : Env) (pfx st : String) (w : World) : Option Nat :=
  match save env pfx st w with
  | Except.error _ => none
  | Except.ok w1 =>
    match save env pfx st w1 with
    | Except.error _ => none
    | Except.ok w2 => some (countKey w2.cache (cacheKeyOf pfx))

/-- World with a pre-existing entry under `foo_state`, to be cleared. -/
def c6World : World := ⟨[], [("foo_state", "old")], []⟩

/-- Environment where the download succeeds but materializes no file. -/
def corruptDownloadEnv : Env := ⟨false, none, false, false, false, false, false, false⟩

/-- World with a stored entry under `foo_state` for the corruption case. -/
def c8World : World := ⟨[], [("foo_state", "42")], []⟩


/- Basic lemmas about the primitives. -/

theorem keyStartsWith_self (k : String) : keyStartsWith k k = true := by
  simp [keyStartsWith]

theorem listKeys_any_eq_hasKey (c : List (String × String)) (k : String) :
    (cacheListKeys c k).any (fun x => x == k) = cacheHasKey c k := by
  induction c with
  | nil => rfl
  | cons e rest ih =>
    by_cases hs : keyStartsWith e.1 k = true
    · simp [cacheListKeys, cacheHasKey, List.filter_cons, hs, List.any_cons] at *
      rw [ih]
    · have he : (e.1 == k) = false := by
        rw [beq_eq_false_iff_ne]
        intro h
        rw [h] at hs
        exact hs (keyStartsWith_self k)
      simp [cacheListKeys, cacheHasKey, List.filter_cons, hs, List.any_cons, he] at *
      rw [ih]

theorem checkIfCacheExists_fst (env : Env) (c : List (String × String)) (k : String)
    (hl : env.listFails = false) :
    (checkIfCacheExists env c k).1 = cacheHasKey c k := by
  simp [checkIfCacheExists, hl, listKeys_any_eq_hasKey]

theorem diskRead_diskWrite_self (d : List (String × String)) (p c : String) :
    diskRead (diskWrite d p c) p = some c := by
  simp [diskRead, diskWrite]

theorem diskExists_diskWrite_self (d : List (String × String)) (p c : String) :
    diskExists (diskWrite d p c) p = true := by
  simp [diskExists, diskWrite]

theorem diskExists_diskUnlink_self (d : List (String × String)) (p : String) :
    diskExists (diskUnlink d p) p = false := by
  simp [diskExists, diskUnlink, List.any_eq_true, List.mem_filter]

theorem cacheHasKey_cacheDeleteKey (c : List (String × String)) (k : String) :
    cacheHasKey (cacheDeleteKey c k) k = false := by
  simp [cacheHasKey, cacheDeleteKey, List.any_eq_true, List.mem_filter]

theorem countKey_cacheDeleteKey (c : List (String × String)) (k : String) :
    countKey (cacheDeleteKey c k) k = 0 := by
  simp [countKey, cacheDeleteKey, List.length_eq_zero, List.filter_eq_nil_iff, List.mem_filter]

theorem countKey_cons_self (c : List (String × String)) (k v : String) :
    countKey ((k, v) :: c) k = countKey c k + 1 := by
  simp [countKey, List.filter_cons]

theorem cacheDeleteKey_of_not_hasKey (c : List (String × String)) (k : String)
    (h : cacheHasKey c k = false) : cacheDeleteKey c k = c := by
  rw [cacheDeleteKey, List.filter_eq_self]
  intro e he
  obtain ⟨a, b⟩ := e
  simp [cacheHasKey, List.any_eq_false] at h
  simp [h a b he]

theorem cacheLookup_isSome_of_hasKey (c : List (String × String)) (k : String)
    (h : cacheHasKey c k = true) : (cacheLookup c k).isSome = true := by
  simp only [cacheHasKey, List.any_eq_true] at h
  obtain ⟨e, he, hk⟩ := h
  simp only [cacheLookup, Option.isSome_map']
  rw [List.find?_isSome]
  exact ⟨e, he, hk⟩

theorem string_length_eq_zero_iff (s : String) : s.length = 0 ↔ s = "" := by
  constructor
  · intro h
    cases s with
    | mk data =>
      have hd : data = [] := by simpa [String.length] using h
      rw [hd]
  · intro h
    rw [h]
    rfl

theorem string_length_beq_zero_false (s : String) (h : s ≠ "") :
    (s.length == 0) = false := by
  rw [beq_eq_false_iff_ne]
  intro hlen
  exact h ((string_length_eq_zero_iff s).mp hlen)

theorem Env.allOk_dest (env : Env) (h : env.allOk = true) :
    env.listFails = false ∧ env.deleteErr = none ∧ env.uploadFails = false ∧
    env.downloadFails = false ∧ env.downloadMaterializes = true ∧
    env.mkdirFails = false ∧ env.writeFails = false ∧ env.readFails = false := by
  simp [Env.allOk, Bool.and_eq_true, Bool.not_eq_true', Option.isNone_iff_eq_none] at h
  tauto

theorem save_eq_ok (env : Env) (pfx st : String) (w : World)
    (hmk : env.mkdirFails = false) (hw : env.writeFails = false) :
    save env pfx st w = Except.ok (saveBody env pfx st w) := by
  simp [save, hmk, hw]

theorem restore_eq_ok (env : Env) (pfx : String) (w : World)
    (hmk : env.mkdirFails = false) :
    restore env pfx w = Except.ok (restoreBody env pfx w) := by
  simp [restore, hmk]

/- Structural lemmas about the save and restore bodies. -/

theorem saveBody_cache (env : Env) (pfx st : String) (w : World)
    (hl : env.listFails = false) (hdel : env.deleteErr = none) (hu : env.uploadFails = false) :
    (saveBody env pfx st w).cache =
      if st = "" then cacheDeleteKey w.cache (cacheKeyOf pfx)
      else (cacheKeyOf pfx, st) :: cacheDeleteKey w.cache (cacheKeyOf pfx) := by
  cases hk : cacheHasKey w.cache (cacheKeyOf pfx) with
  | true =>
    by_cases hst : st = ""
    · subst hst
      simp [saveBody, checkIfCacheExists, hl, listKeys_any_eq_hasKey, hk,
        resetCacheWithOctokit, hdel, diskRead_diskWrite_self]
    · simp [saveBody, checkIfCacheExists, hl, listKeys_any_eq_hasKey, hk,
        resetCacheWithOctokit, hdel, diskRead_diskWrite_self, hu,
        string_length_beq_zero_false st hst, hst]
  | false =>
    rw [cacheDeleteKey_of_not_hasKey w.cache (cacheKeyOf pfx) hk]
    by_cases hst : st = ""
    · subst hst
      simp [saveBody, checkIfCacheExists, hl, listKeys_any_eq_hasKey, hk,
        diskRead_diskWrite_self]
    · simp [saveBody, checkIfCacheExists, hl, listKeys_any_eq_hasKey, hk,
        diskRead_diskWrite_self, hu, string_length_beq_zero_false st hst, hst]

theorem saveBody_deleteErr (env : Env) (pfx st : String) (w : World) (e : JsErr)
    (hl : env.listFails = false) (hdel : env.deleteErr = some e)
    (hst : e.statusTruthy = false)
    (hk : cacheHasKey w.cache (cacheKeyOf pfx) = true) :
    (saveBody env pfx st w).cache = w.cache
    ∧ saveFailWarning e ∈ (saveBody env pfx st w).logs := by
  constructor <;>
    simp [saveBody, checkIfCacheExists, hl, listKeys_any_eq_hasKey, hk,
      resetCacheWithOctokit, hdel, hst]

theorem restoreBody_found (env : Env) (pfx st : String) (w : World)
    (hl : env.listFails = false) (hd : env.downloadFails = false)
    (hm : env.downloadMaterializes = true) (hr : env.readFails = false)
    (hk : cacheHasKey w.cache (cacheKeyOf pfx) = true)
    (hlook : cacheLookup w.cache (cacheKeyOf pfx) = some st) :
    (restoreBody env pfx w).1 = st := by
  simp [restoreBody, checkIfCacheExists, hl, listKeys_any_eq_hasKey, hk, hd, hm,
    hlook, diskExists_diskWrite_self, diskRead_diskWrite_self, hr]

theorem restoreBody_absent (env : Env) (pfx : String) (w : World)
    (h : (checkIfCacheExists env w.cache (cacheKeyOf pfx)).1 = false) :
    (restoreBody env pfx w).1 = "" ∧ notFoundInfo ∈ (restoreBody env pfx w).2.logs := by
  constructor <;> simp [restoreBody, h]

/- Claim C1. -/

/-- C1 counterexample: the claim says the scratch file never exists on
disk when a save/restore call returns, but a fully successful `restore`
(entry found, download materializes the scratch file, read succeeds)
returns with the scratch file still present: the source only unlinks the
scratch file at the start of `restore`, never at its end. -/
theorem c1_counterexample : scratchLeftAfterRestore goodEnv "foo" c1World = true := by decide

/-- C1 (amended): `save` always removes the scratch file before returning
normally — its finally-block unlink runs on every exit path of the try —
but a successful `restore` may leave the freshly downloaded scratch file
on disk when it returns. -/
theorem c1_amended (env : Env) (pfx st : String) (w w1 : World)
    (h : save env pfx st w = Except.ok w1) :
    diskExists w1.disk (scratchFilePath pfx) = false := by
  have hb : saveBody env pfx st w = w1 := by
    unfold save at h
    split at h
    · exact absurd h (by simp)
    · split at h
      · exact absurd h (by simp)
      · exact Except.ok.inj h
  rw [← hb]
  simp only [saveBody]
  exact diskExists_diskUnlink_self _ _

/-- C1 witness: the amended theorem at a concrete successful save. -/
theorem c1_witness :
    save goodEnv "foo" "42" w0 = Except.ok (saveBody goodEnv "foo" "42" w0)
    ∧ diskExists (saveBody goodEnv "foo" "42" w0).disk (scratchFilePath "foo") = false :=
  ⟨rfl, c1_amended goodEnv "foo" "42" w0 (saveBody goodEnv "foo" "42" w0) rfl⟩

/- Claim C2. -/

/-- C2: with every backend and filesystem operation succeeding, saving a
non-empty string and then restoring returns exactly that string, with no
transformation. -/
theorem c2_round_trip (env : Env) (pfx st : String) (w : World)
    (hok : env.allOk = true) (hne : st ≠ "") :
    saveThenRestore env pfx st w = some st := by
  obtain ⟨hl, hdel, hu, hd, hm, hmk, hw, hr⟩ := Env.allOk_dest env hok
  have hsave := save_eq_ok env pfx st w hmk hw
  have hcache := saveBody_cache env pfx st w hl hdel hu
  rw [if_neg hne] at hcache
  have hres := restore_eq_ok env pfx (saveBody env pfx st w) hmk
  have hk : cacheHasKey (saveBody env pfx st w).cache (cacheKeyOf pfx) = true := by
    rw [hcache]; simp [cacheHasKey]
  have hlook : cacheLookup (saveBody env pfx st w).cache (cacheKeyOf pfx) = some st := by
    rw [hcache]; simp [cacheLookup]
  have hfound := restoreBody_found env pfx st (saveBody env pfx st w) hl hd hm hr hk hlook
  simp [saveThenRestore, hsave, hres, hfound]

/-- C2 witness: the round trip at prefix `foo` with payload `42`. -/
theorem c2_witness :
    goodEnv.allOk = true ∧ "42" ≠ "" ∧ saveThenRestore goodEnv "foo" "42" w0 = some "42" :=
  ⟨rfl, by decide, c2_round_trip goodEnv "foo" "42" w0 rfl (by decide)⟩

/- Claim C3. -/

/-- C3 counterexample: the delete step does fail with a status-less error
(it escapes `resetCacheWithOctokit`), yet `save` returns normally — the
error is absorbed by `save`'s own catch block and logged as a warning, so
it is never propagated out of `save` to its caller as the claim states. -/
theorem c3_counterexample :
    (resetCacheWithOctokit statuslessDeleteEnv c3World.cache (cacheKeyOf "foo")).2.2 =
        some ⟨none, "boom"⟩
    ∧ save statuslessDeleteEnv "foo" "42" c3World = Except.ok
        ⟨[], [("foo_state", "old")],
         [LogMsg.debug "remove cache \"foo_state\"",
          LogMsg.warning "Saving the state was not successful due to \"boom\""]⟩ :=
  ⟨rfl, rfl⟩

/-- C3 (amended): a delete failure with a truthy status code is logged as
a warning inside `resetCacheWithOctokit` and swallowed, and save continues
to the upload; a delete failure with no recognizable status is rethrown
out of the delete step (`resetCacheWithOctokit`), but `save`'s outer catch
absorbs it, logs it as a warning, uploads nothing, and `save` still
returns normally to its caller. -/
theorem c3_amended (env : Env) (pfx st : String) (w : World) (e : JsErr)
    (hmk : env.mkdirFails = false) (hw : env.writeFails = false)
    (hl : env.listFails = false) (hdel : env.deleteErr = some e)
    (hk : cacheHasKey w.cache (cacheKeyOf pfx) = true) :
    (e.statusTruthy = true →
      (resetCacheWithOctokit env w.cache (cacheKeyOf pfx)).2.2 = none
      ∧ deleteWarning (cacheKeyOf pfx) e ∈ (resetCacheWithOctokit env w.cache (cacheKeyOf pfx)).2.1
      ∧ (env.uploadFails = false → st ≠ "" →
          (saveBody env pfx st w).cache = (cacheKeyOf pfx, st) :: w.cache))
    ∧ (e.statusTruthy = false →
      (resetCacheWithOctokit env w.cache (cacheKeyOf pfx)).2.2 = some e
      ∧ save env pfx st w = Except.ok (saveBody env pfx st w)
      ∧ (saveBody env pfx st w).cache = w.cache
      ∧ saveFailWarning e ∈ (saveBody env pfx st w).logs) := by
  constructor
  · intro htrue
    refine ⟨?_, ?_, ?_⟩
    · simp [resetCacheWithOctokit, hdel, htrue]
    · simp [resetCacheWithOctokit, hdel, htrue]
    · intro hu hne
      simp [saveBody, checkIfCacheExists, hl, listKeys_any_eq_hasKey, hk,
        resetCacheWithOctokit, hdel, htrue, diskRead_diskWrite_self, hu,
        string_length_beq_zero_false st hne]
  · intro hfalse
    refine ⟨?_, save_eq_ok env pfx st w hmk hw, ?_, ?_⟩
    · simp [resetCacheWithOctokit, hdel, hfalse]
    · exact (saveBody_deleteErr env pfx st w e hl hdel hfalse hk).1
    · exact (saveBody_deleteErr env pfx st w e hl hdel hfalse hk).2

/-- C3 witness: the amended theorem at the status-less concrete failure. -/
theorem c3_witness :
    statuslessDeleteEnv.mkdirFails = false ∧ statuslessDeleteEnv.writeFails = false
    ∧ statuslessDeleteEnv.listFails = false
    ∧ statuslessDeleteEnv.deleteErr = some ⟨none, "boom"⟩
    ∧ cacheHasKey c3World.cache (cacheKeyOf "foo") = true
    ∧ ((JsErr.mk none "boom").statusTruthy = false →
      (resetCacheWithOctokit statuslessDeleteEnv c3World.cache (cacheKeyOf "foo")).2.2 =
          some ⟨none, "boom"⟩
      ∧ save statuslessDeleteEnv "foo" "42" c3World =
          Except.ok (saveBody statuslessDeleteEnv "foo" "42" c3World)
      ∧ (saveBody statuslessDeleteEnv "foo" "42" c3World).cache = c3World.cache
      ∧ saveFailWarning ⟨none, "boom"⟩ ∈ (saveBody statuslessDeleteEnv "foo" "42" c3World).logs) :=
  ⟨rfl, rfl, rfl, rfl, by decide,
    (c3_amended statuslessDeleteEnv "foo" "42" c3World ⟨none, "boom"⟩
      rfl rfl rfl rfl (by decide)).2⟩

/- Claim C4. -/

/-- C4 counterexample: `mkTempDir` runs before `restore`'s try block, so a
filesystem failure creating the scratch directory throws out of `restore`,
contradicting "restore never throws ... including any backend or
filesystem failure". -/
theorem c4_counterexample : restore mkdirFailEnv "foo" w0 = Except.error mkdirErr := rfl

/-- C4 (amended): provided scratch-directory creation succeeds, `restore`
returns normally on every execution, and it returns the empty string on a
listing failure, on a never-written key, on a download failure, on a
download that leaves no scratch file, and on a read failure. -/
theorem c4_amended (env : Env) (pfx : String) (w : World)
    (hmk : env.mkdirFails = false) :
    restore env pfx w = Except.ok (restoreBody env pfx w)
    ∧ (env.listFails = true → (restoreBody env pfx w).1 = "")
    ∧ ((∀ e ∈ w.cache, e.1 ≠ cacheKeyOf pfx) → (restoreBody env pfx w).1 = "")
    ∧ (env.downloadFails = true → (restoreBody env pfx w).1 = "")
    ∧ (env.downloadMaterializes = false → (restoreBody env pfx w).1 = "")
    ∧ (env.readFails = true → (restoreBody env pfx w).1 = "") := by
  refine ⟨restore_eq_ok env pfx w hmk, ?_, ?_, ?_, ?_, ?_⟩
  · intro hlt
    simp [restoreBody, checkIfCacheExists, hlt]
  · intro hno
    cases hlt : env.listFails with
    | true => simp [restoreBody, checkIfCacheExists, hlt]
    | false =>
      have hkf : cacheHasKey w.cache (cacheKeyOf pfx) = false := by
        simp only [cacheHasKey, List.any_eq_false]
        intro e he
        obtain ⟨a, b⟩ := e
        simpa using hno (a, b) he
      simp [restoreBody, checkIfCacheExists, hlt, listKeys_any_eq_hasKey, hkf]
  · intro hdf
    cases hlt : env.listFails with
    | true => simp [restoreBody, checkIfCacheExists, hlt]
    | false =>
      cases hk : cacheHasKey w.cache (cacheKeyOf pfx) with
      | false => simp [restoreBody, checkIfCacheExists, hlt, listKeys_any_eq_hasKey, hk]
      | true => simp [restoreBody, checkIfCacheExists, hlt, listKeys_any_eq_hasKey, hk, hdf]
  · intro hmat
    cases hlt : env.listFails with
    | true => simp [restoreBody, checkIfCacheExists, hlt]
    | false =>
      cases hk : cacheHasKey w.cache (cacheKeyOf pfx) with
      | false => simp [restoreBody, checkIfCacheExists, hlt, listKeys_any_eq_hasKey, hk]
      | true =>
        cases hdf : env.downloadFails with
        | true => simp [restoreBody, checkIfCacheExists, hlt, listKeys_any_eq_hasKey, hk, hdf]
        | false =>
          simp [restoreBody, checkIfCacheExists, hlt, listKeys_any_eq_hasKey, hk, hdf, hmat,
            diskExists_diskUnlink_self]
  · intro hrf
    cases hlt : env.listFails with
    | true => simp [restoreBody, checkIfCacheExists, hlt]
    | false =>
      cases hk : cacheHasKey w.cache (cacheKeyOf pfx) with
      | false => simp [restoreBody, checkIfCacheExists, hlt, listKeys_any_eq_hasKey, hk]
      | true =>
        cases hdf : env.downloadFails with
        | true => simp [restoreBody, checkIfCacheExists, hlt, listKeys_any_eq_hasKey, hk, hdf]
        | false =>
          cases hmat : env.downloadMaterializes with
          | false =>
            simp [restoreBody, checkIfCacheExists, hlt, listKeys_any_eq_hasKey, hk, hdf, hmat,
              diskExists_diskUnlink_self]
          | true =>
            obtain ⟨st, hlook⟩ := Option.isSome_iff_exists.mp
              (cacheLookup_isSome_of_hasKey w.cache (cacheKeyOf pfx) hk)
            simp [restoreBody, checkIfCacheExists, hlt, listKeys_any_eq_hasKey, hk, hdf, hmat,
              hlook, diskExists_diskWrite_self, hrf]

/-- C4 witness: the amended theorem at a concrete listing failure. -/
theorem c4_witness :
    listFailEnv.mkdirFails = false ∧
    (restore listFailEnv "foo" w0 = Except.ok (restoreBody listFailEnv "foo" w0)
     ∧ (listFailEnv.listFails = true → (restoreBody listFailEnv "foo" w0).1 = "")
     ∧ ((∀ e ∈ w0.cache, e.1 ≠ cacheKeyOf "foo") → (restoreBody listFailEnv "foo" w0).1 = "")
     ∧ (listFailEnv.downloadFails = true → (restoreBody listFailEnv "foo" w0).1 = "")
     ∧ (listFailEnv.downloadMaterializes = false → (restoreBody listFailEnv "foo" w0).1 = "")
     ∧ (listFailEnv.readFails = true → (restoreBody listFailEnv "foo" w0).1 = "")) :=
  ⟨rfl, c4_amended listFailEnv "foo" w0 rfl⟩

/- Claim C5. -/

/-- C5: with the listing succeeding, the existence check reports true
exactly when the prefix-filtered listing contains a key equal to the
computed cache key; and when no stored entry's key equals it — even if
some keys merely start with it — the check reports false. -/
theorem c5_exact_match (env : Env) (c : List (String × String)) (k : String)
    (hl : env.listFails = false) :
    ((checkIfCacheExists env c k).1 = true ↔ k ∈ cacheListKeys c k)
    ∧ ((∀ e ∈ c, e.1 ≠ k) → (checkIfCacheExists env c k).1 = false) := by
  constructor
  · simp [checkIfCacheExists, hl, List.any_eq_true]
  · intro h
    rw [checkIfCacheExists_fst env c k hl]
    simp only [cacheHasKey, List.any_eq_false]
    intro e he
    obtain ⟨a, b⟩ := e
    simpa using h (a, b) he

/-- C5 witness: an entry whose key strictly extends the cache key does not
count as existing. -/
theorem c5_witness :
    goodEnv.listFails = false
    ∧ (checkIfCacheExists goodEnv [("foo_state-extra", "x")] "foo_state").1 = false :=
  ⟨rfl, (c5_exact_match goodEnv [("foo_state-extra", "x")] "foo_state" rfl).2 (by decide)⟩

/- Claim C6. -/

/-- C6: with a successful backend, saving the empty string deletes any
existing entry under the cache key and uploads nothing, so no entry for
the key remains and a subsequent restore returns the empty string. -/
theorem c6_clear (env : Env) (pfx : String) (w : World) (hok : env.allOk = true) :
    save env pfx "" w = Except.ok (saveBody env pfx "" w)
    ∧ (saveBody env pfx "" w).cache = cacheDeleteKey w.cache (cacheKeyOf pfx)
    ∧ cacheHasKey (saveBody env pfx "" w).cache (cacheKeyOf pfx) = false
    ∧ saveThenRestore env pfx "" w = some "" := by
  obtain ⟨hl, hdel, hu, hd, hm, hmk, hw, hr⟩ := Env.allOk_dest env hok
  have hsave := save_eq_ok env pfx "" w hmk hw
  have hcache := saveBody_cache env pfx "" w hl hdel hu
  rw [if_pos rfl] at hcache
  have hnk : cacheHasKey (saveBody env pfx "" w).cache (cacheKeyOf pfx) = false := by
    rw [hcache]
    exact cacheHasKey_cacheDeleteKey w.cache (cacheKeyOf pfx)
  refine ⟨hsave, hcache, hnk, ?_⟩
  have hchk : (checkIfCacheExists env (saveBody env pfx "" w).cache (cacheKeyOf pfx)).1 = false := by
    rw [checkIfCacheExists_fst env _ _ hl, hnk]
  have habs := restoreBody_absent env pfx (saveBody env pfx "" w) hchk
  simp [saveThenRestore, hsave, restore_eq_ok env pfx (saveBody env pfx "" w) hmk, habs.1]

/-- C6 witness: clearing a concrete pre-existing entry. -/
theorem c6_witness :
    goodEnv.allOk = true
    ∧ (save goodEnv "foo" "" c6World = Except.ok (saveBody goodEnv "foo" "" c6World)
       ∧ (saveBody goodEnv "foo" "" c6World).cache = cacheDeleteKey c6World.cache (cacheKeyOf "foo")
       ∧ cacheHasKey (saveBody goodEnv "foo" "" c6World).cache (cacheKeyOf "foo") = false
       ∧ saveThenRestore goodEnv "foo" "" c6World = some "") :=
  ⟨rfl, c6_clear goodEnv "foo" c6World rfl⟩

/- Claim C7. -/

/-- C7: with a successful backend, any save leaves at most one entry
under the cache key, and saving the same non-empty payload twice in a row
leaves exactly one entry — the delete-before-write policy prevents
accumulation. -/
theorem c7_at_most_one (env : Env) (pfx st : String) (w w1 : World)
    (hok : env.allOk = true) (h1 : save env pfx st w = Except.ok w1) :
    countKey w1.cache (cacheKeyOf pfx) ≤ 1
    ∧ (st ≠ "" → saveTwiceCache env pfx st w = some 1) := by
  obtain ⟨hl, hdel, hu, hd, hm, hmk, hw, hr⟩ := Env.allOk_dest env hok
  rw [save_eq_ok env pfx st w hmk hw] at h1
  have hw1 : saveBody env pfx st w = w1 := Except.ok.inj h1
  subst hw1
  have hc1 := saveBody_cache env pfx st w hl hdel hu
  constructor
  · rw [hc1]
    by_cases hst : st = ""
    · rw [if_pos hst, countKey_cacheDeleteKey]
      exact Nat.zero_le 1
    · rw [if_neg hst, countKey_cons_self, countKey_cacheDeleteKey]
  · intro hst
    have hc2 := saveBody_cache env pfx st (saveBody env pfx st w) hl hdel hu
    rw [if_neg hst] at hc2
    simp [saveTwiceCache, save_eq_ok env pfx st _ hmk hw, hc2,
      countKey_cons_self, countKey_cacheDeleteKey]

/-- C7 witness: two concrete saves of `42` leave exactly one entry. -/
theorem c7_witness :
    goodEnv.allOk = true
    ∧ save goodEnv "foo" "42" w0 = Except.ok (saveBody goodEnv "foo" "42" w0)
    ∧ (countKey (saveBody goodEnv "foo" "42" w0).cache (cacheKeyOf "foo") ≤ 1
       ∧ ("42" ≠ "" → saveTwiceCache goodEnv "foo" "42" w0 = some 1)) :=
  ⟨rfl, rfl, c7_at_most_one goodEnv "foo" "42" w0 (saveBody goodEnv "foo" "42" w0) rfl rfl⟩

/- Claim C8. -/

/-- C8: when the entry is reported as existing and the download completes
without error but leaves no scratch file on disk, `restore` returns
normally with the empty string and logs the unpacking warning. -/
theorem c8_corruption (env : Env) (pfx : String) (w : World)
    (hmk : env.mkdirFails = false) (hl : env.listFails = false)
    (hd : env.downloadFails = false) (hm : env.downloadMaterializes = false)
    (hk : cacheHasKey w.cache (cacheKeyOf pfx) = true) :
    restore env pfx w = Except.ok (restoreBody env pfx w)
    ∧ (restoreBody env pfx w).1 = ""
    ∧ unpackWarning ∈ (restoreBody env pfx w).2.logs := by
  refine ⟨restore_eq_ok env pfx w hmk, ?_, ?_⟩ <;>
    simp [restoreBody, checkIfCacheExists, hl, listKeys_any_eq_hasKey, hk, hd, hm,
      diskExists_diskUnlink_self]

/-- C8 witness: a concrete corrupt download. -/
theorem c8_witness :
    corruptDownloadEnv.mkdirFails = false ∧ corruptDownloadEnv.listFails = false
    ∧ corruptDownloadEnv.downloadFails = false
    ∧ corruptDownloadEnv.downloadMaterializes = false
    ∧ cacheHasKey c8World.cache (cacheKeyOf "foo") = true
    ∧ (restore corruptDownloadEnv "foo" c8World =
        Except.ok (restoreBody corruptDownloadEnv "foo" c8World)
       ∧ (restoreBody corruptDownloadEnv "foo" c8World).1 = ""
       ∧ unpackWarning ∈ (restoreBody corruptDownloadEnv "foo" c8World).2.logs) :=
  ⟨rfl, rfl, rfl, rfl, by decide,
    c8_corruption corruptDownloadEnv "foo" c8World rfl rfl rfl rfl (by decide)⟩

/- Claim C9. -/

/-- C9: for every prefix the cache key is the prefix followed by `_state`
and the scratch filename is the prefix followed by `_state.txt`; for
prefix `foo`, saving `42` results in the single cache entry
`("foo_state", "42")` (the staged scratch file's name and content under
the cache key), and a subsequent restore returns `42`. -/
theorem c9_key_and_file_shapes :
    (∀ pfx : String, cacheKeyOf pfx = pfx ++ "_state"
      ∧ stateFileName pfx = pfx ++ "_state.txt")
    ∧ (saveBody goodEnv "foo" "42" w0).cache = [("foo_state", "42")]
    ∧ saveThenRestore goodEnv "foo" "42" w0 = some "42" := by
  refine ⟨fun pfx => ⟨rfl, ?_⟩, by decide, by decide⟩
  have h : "_" ++ "state.txt" = "_state.txt" := by decide
  rw [stateFileName, STATE_FILE, String.append_assoc, h]

/- Claim C10. -/

/-- C10: when the backend listing itself fails, the existence check
reports absence, so `save` skips the delete step and proceeds to upload,
and `restore` returns the empty string as on a first run, with no error
propagating. -/
theorem c10_listing_error_as_absence (env : Env) (pfx st : String) (w : World)
    (hlt : env.listFails = true) (hmk : env.mkdirFails = false)
    (hw : env.writeFails = false) (hu : env.uploadFails = false) (hne : st ≠ "") :
    (checkIfCacheExists env w.cache (cacheKeyOf pfx)).1 = false
    ∧ save env pfx st w = Except.ok (saveBody env pfx st w)
    ∧ (saveBody env pfx st w).cache = (cacheKeyOf pfx, st) :: w.cache
    ∧ restore env pfx w = Except.ok (restoreBody env pfx w)
    ∧ (restoreBody env pfx w).1 = ""
    ∧ notFoundInfo ∈ (restoreBody env pfx w).2.logs := by
  refine ⟨?_, save_eq_ok env pfx st w hmk hw, ?_, restore_eq_ok env pfx w hmk, ?_, ?_⟩
  · simp [checkIfCacheExists, hlt]
  · simp [saveBody, checkIfCacheExists, hlt, diskRead_diskWrite_self, hu,
      string_length_beq_zero_false st hne]
  · simp [restoreBody, checkIfCacheExists, hlt]
  · simp [restoreBody, checkIfCacheExists, hlt]

/-- C10 witness: a concrete listing failure with a non-empty payload. -/
theorem c10_witness :
    listFailEnv.listFails = true ∧ listFailEnv.mkdirFails = false
    ∧ listFailEnv.writeFails = false ∧ listFailEnv.uploadFails = false ∧ "42" ≠ ""
    ∧ ((checkIfCacheExists listFailEnv w0.cache (cacheKeyOf "foo")).1 = false
       ∧ save listFailEnv "foo" "42" w0 = Except.ok (saveBody listFailEnv "foo" "42" w0)
       ∧ (saveBody listFailEnv "foo" "42" w0).cache = (cacheKeyOf "foo", "42") :: w0.cache
       ∧ restore listFailEnv "foo" w0 = Except.ok (restoreBody listFailEnv "foo" w0)
       ∧ (restoreBody listFailEnv "foo" w0).1 = ""
       ∧ notFoundInfo ∈ (restoreBody listFailEnv "foo" w0).2.logs) :=
  ⟨rfl, rfl, rfl, rfl, by decide,
    c10_listing_error_as_absence listFailEnv "foo" "42" w0 rfl rfl rfl rfl (by decide)⟩
